import Mathlib

/-!
Verification of the field-selection and filter-expression core of the
"Filtra Selecionados" QGIS plugin, embedded from the latest source
(`Filtra_Selecionados_V3.py`).  Layers are modelled as schemas (lists of
typed fields) plus feature lists; attribute values are integers, strings
or an explicit null marker (floating-point attribute values play no role
in any of the verified properties, only the declared type tag does).
-/

set_option maxHeartbeats 1000000
set_option maxRecDepth 4096

/-- Declared attribute types (the QVariant/QMetaType tags the source tests). -/
inductive FieldType where
  | tInt
  | tLongLong
  | tString
  | tChar
  | tDouble
  | tOther
deriving DecidableEq, Repr

/-- Attribute values as the source observes them: Python `None` is the
explicit null marker `vNull`; strings and integers are the only value
shapes the selection logic inspects. -/
inductive Value where
  | vInt (i : Int)
  | vStr (s : String)
  | vNull
deriving DecidableEq, Repr

/-- A schema field: `QgsField` name and declared type. -/
structure Campo where
  name : String
  type : FieldType
deriving DecidableEq, Repr

/-- A feature: stable id plus attribute values aligned positionally with
the layer schema. -/
structure Feature where
  fid : Nat
  values : List Value
deriving DecidableEq, Repr

/-- Catalog queries issued by `obter_chave_primaria`; the SQL text built by
the source is opaque to the selection logic, so each provider-specific
query is represented by a descriptor carrying the identifiers interpolated
into it. -/
inductive SqlQuery where
  | pgPk (schemaName tableName : String)
  | mysqlPk (databaseName tableName : String)
  | mssqlPk (tableName : String)
  | spatialitePragma (tableName : String)
  | oraclePk (tableName schemaName : String)
deriving DecidableEq, Repr

/-- A vector layer as seen by the plugin: schema, features, provider
metadata, selection, subset string, and the provider's raw-SQL entry point
(`executeSql`), which may fail (`Except.error`) the way the Python call can
raise. -/
structure Layer where
  fields : List Campo
  features : List Feature
  providerName : String
  sourceUri : String
  ehTemporaria : Bool
  podeAdicionarAtributos : Bool
  subsetString : String
  selectedFeatureIds : List Nat
  ehValida : Bool
  uriSchema : String
  uriTable : String
  uriDatabase : String
  executeSql : SqlQuery → Except String (List (List Value))

/-- Python's `str.lower()` (ASCII case folding, character by character). -/
def minusculas (s : String) : String :=
  String.mk (s.data.map Char.toLower)

/-- Python's `str.upper()` (ASCII case folding, character by character). -/
def maiusculas (s : String) : String :=
  String.mk (s.data.map Char.toUpper)

/-- Python substring test helper: `comecaCom sub s` is true when `sub` is an
initial segment of `s`. -/
def comecaCom : List Char → List Char → Bool
  | [], _ => true
  | _ :: _, [] => false
  | a :: as, b :: bs => a = b && comecaCom as bs

/-- Python substring test helper: `ocorreEm sub s` is true when `sub` occurs
contiguously inside `s`. -/
def ocorreEm (agulha : List Char) : List Char → Bool
  | [] => agulha.isEmpty
  | b :: bs => comecaCom agulha (b :: bs) || ocorreEm agulha bs

/-- Python's `agulha in s` on strings. -/
def contemSub (agulha s : String) : Bool :=
  ocorreEm agulha.data s.data

/-- `QgsFields.lookupField` helper: exact-name position, counted from 0. -/
def indiceDoCampo (nome : String) : List Campo → Option Nat
  | [] => none
  | c :: resto =>
    if c.name = nome then some 0 else (indiceDoCampo nome resto).map (· + 1)

/-- `QgsFields.lookupField` helper: case-insensitive fallback position. -/
def indiceDoCampoCI (nome : String) : List Campo → Option Nat
  | [] => none
  | c :: resto =>
    if minusculas c.name = minusculas nome then some 0
    else (indiceDoCampoCI nome resto).map (· + 1)

/-- `QgsFields.lookupField`: exact match first, then case-insensitive; `none`
models the `-1` the source compares against. -/
def lookupField (fs : List Campo) (nome : String) : Option Nat :=
  match indiceDoCampo nome fs with
  | some i => some i
  | none => indiceDoCampoCI nome fs

/-- String normalization applied by `campo_e_unico` before comparison:
`valor.strip().lower()` on strings, identity otherwise. -/
def normalizar : Value → Value
  | Value.vStr s => Value.vStr (minusculas s.trim)
  | v => v

/-- The accumulation loop of `campo_e_unico`: walk the features, project the
attribute at `i`, normalize, and collect into the seen-set (`valores`);
`none` models the early `return False` on a repeated value. -/
def coletaValores (i : Nat) : List Feature → List Value → Option (List Value)
  | [], vistos => some vistos
  | f :: resto, vistos =>
    let v := normalizar (f.values.getD i Value.vNull)
    if v ∈ vistos then none else coletaValores i resto (v :: vistos)

/-- `campo_e_unico(camada, nome_campo)`: false when the field is missing
(`lookupField` is `-1`), false on the first repeated normalized value, and
otherwise the final `len(valores) == camada.featureCount()` test. -/
def campo_e_unico (l : Layer) (nome : String) : Bool :=
  match lookupField l.fields nome with
  | none => false
  | some i =>
    match coletaValores i l.features [] with
    | none => false
    | some vistos => vistos.length = l.features.length

/-- `possui_valores_nulos(camada, nome_campo)`: some feature has `None` in
the named field.  Every call site passes a name present in the schema; the
missing-name case (a `KeyError` in the source) is modelled as `true`. -/
def possui_valores_nulos (l : Layer) (nome : String) : Bool :=
  match lookupField l.fields nome with
  | none => true
  | some i => l.features.any (fun f => decide (f.values.getD i Value.vNull = Value.vNull))

/-- `camada_editavel`: the provider advertises the `AddAttributes` capability. -/
def camada_editavel (l : Layer) : Bool :=
  l.podeAdicionarAtributos

/-- The classification tags of `identificar_tipo_camada`. -/
inductive TipoCamada where
  | wfs
  | database
  | csv
  | kml
  | file
  | temporary
  | other
deriving DecidableEq, Repr

/-- `identificar_tipo_camada(camada)`: classification by provider name and
source locator, evaluated in the source's order. -/
def identificar_tipo_camada (l : Layer) : TipoCamada :=
  let provedor := minusculas l.providerName
  let uri := minusculas l.sourceUri
  if contemSub "wfs" uri = true ∨ provedor = "wfs" then TipoCamada.wfs
  else if provedor = "postgres" ∨ provedor = "postgresql" ∨ provedor = "oracle" ∨
          provedor = "mssql" ∨ provedor = "mysql" ∨ provedor = "spatialite" then
    TipoCamada.database
  else if provedor = "delimitedtext" ∨ contemSub ".csv" uri = true then TipoCamada.csv
  else if contemSub "libkml" provedor = true ∨ contemSub ".kml" uri = true ∨
          contemSub ".kmz" uri = true then TipoCamada.kml
  else if provedor = "ogr" ∧ (contemSub ".shp" uri = true ∨ contemSub ".gpkg" uri = true) then
    TipoCamada.file
  else if l.ehTemporaria = true then TipoCamada.temporary
  else TipoCamada.other

/-- Python's `str()` on the attribute values the plugin renders. -/
def valorTexto : Value → String
  | Value.vInt i => toString i
  | Value.vStr s => s
  | Value.vNull => "NULL"

/-- List indexing that raises: models Python's `linha[i]` inside the
primary-key resolver's `try` block. -/
def nthExc (linha : List Value) (i : Nat) : Except String Value :=
  match linha[i]? with
  | some v => Except.ok v
  | none => Except.error "IndexError"

/-- The spatialite branch of `obter_chave_primaria`: scan the
`PRAGMA table_info` rows; the row whose sixth cell equals `1` names the
primary-key column in its second cell. -/
def pragmaPk : List (List Value) → Except String (Option String)
  | [] => Except.ok none
  | coluna :: resto => do
    let marcadorPk ← nthExc coluna 5
    if marcadorPk = Value.vInt 1 then
      let nome ← nthExc coluna 1
      Except.ok (some (valorTexto nome))
    else pragmaPk resto

/-- Helper for `ultimaParte`: last dot-separated segment of a character
list (`atual` is the reversed segment under construction). -/
def ultimoSegmento : List Char → List Char → List Char
  | atual, [] => atual.reverse
  | atual, c :: resto =>
    if c = Char.ofNat 46 then ultimoSegmento [] resto else ultimoSegmento (c :: atual) resto

/-- MSSQL table-name munging: Python's `uri.table().split('.')[-1]` when the
table name is qualified. -/
def ultimaParte (s : String) : String :=
  if contemSub "." s = true then String.mk (ultimoSegmento [] s.data) else s

/-- Everything inside the `try` block of `obter_chave_primaria`: build the
provider-specific catalog query, run it, and read the answer; any raised
step surfaces as `Except.error`. -/
def obterPkCorpo (l : Layer) : Except String (Option String) :=
  let provedor := minusculas l.providerName
  let consulta : Option SqlQuery :=
    if provedor = "postgres" ∨ provedor = "postgresql" then
      some (SqlQuery.pgPk l.uriSchema l.uriTable)
    else if provedor = "mysql" then
      some (SqlQuery.mysqlPk l.uriDatabase l.uriTable)
    else if provedor = "mssql" then
      some (SqlQuery.mssqlPk (ultimaParte l.uriTable))
    else if provedor = "spatialite" then
      some (SqlQuery.spatialitePragma l.uriTable)
    else if provedor = "oracle" then
      some (SqlQuery.oraclePk (maiusculas l.uriTable) (maiusculas l.uriSchema))
    else none
  match consulta with
  | none => Except.ok none
  | some q => do
    let resultado ← l.executeSql q
    if provedor = "spatialite" then
      pragmaPk resultado
    else
      match resultado with
      | [] => Except.ok none
      | primeira :: _ => do
        let celula ← nthExc primeira 0
        Except.ok (some (valorTexto celula))

/-- `obter_chave_primaria(camada)`: the `try` body with its `except` handler
— any failure is logged and collapsed to `None`. -/
def obter_chave_primaria (l : Layer) : Option String :=
  match obterPkCorpo l with
  | Except.ok r => r
  | Except.error _ => none

/-- One priority tier of the editable branch: keyword list × admissible
declared types. -/
structure Grupo where
  nomes : List String
  tipos : List FieldType
deriving DecidableEq, Repr

/-- Tier 1 of `prioridades`. -/
def grupo1 : Grupo :=
  { nomes := ["fid", "id", "objectid"], tipos := [FieldType.tInt, FieldType.tLongLong] }

/-- Tier 2 of `prioridades`. -/
def grupo2 : Grupo :=
  { nomes := ["id", "cod", "co"], tipos := [FieldType.tInt] }

/-- Tier 3 of `prioridades`. -/
def grupo3 : Grupo :=
  { nomes := ["id", "cod", "co", "nome", "no"], tipos := [FieldType.tString] }

/-- Tier 4 of `prioridades`. -/
def grupo4 : Grupo :=
  { nomes := [], tipos := [FieldType.tInt] }

/-- Tier 5 of `prioridades`. -/
def grupo5 : Grupo :=
  { nomes := [], tipos := [FieldType.tString] }

/-- The five-tier priority list of `identificar_campo_filtro`'s editable
branch, in the source's order. -/
def prioridades : List Grupo :=
  [grupo1, grupo2, grupo3, grupo4, grupo5]

/-- The per-field name/type test of the tier loop: `tipo_valido` is
membership of the declared type in the tier's list, `nome_valido` is
vacuous for keyword-less tiers and otherwise a case-insensitive substring
test (`n in nome_campo`). -/
def campoSatisfazGrupo (g : Grupo) (c : Campo) : Bool :=
  let nomeCampo := minusculas c.name
  let tipoValido := g.tipos.any (fun t => decide (t = c.type))
  let nomeValido := g.nomes.isEmpty || g.nomes.any (fun n => contemSub n nomeCampo)
  nomeValido && tipoValido

/-- The schema scan shared by the database and non-editable branches:
first field (in schema order) that is unique and null-free. -/
def primeiroCampoUnico (l : Layer) : List Campo → Option String
  | [] => none
  | c :: resto =>
    if campo_e_unico l c.name && !possui_valores_nulos l c.name then some c.name
    else primeiroCampoUnico l resto

/-- The inner field loop of the tier scan: first field (in schema order)
matching the tier's name/type test that is also unique and null-free. -/
def buscaGrupo (l : Layer) (g : Grupo) : List Campo → Option String
  | [] => none
  | c :: resto =>
    if campoSatisfazGrupo g c && campo_e_unico l c.name && !possui_valores_nulos l c.name then
      some c.name
    else buscaGrupo l g resto

/-- The outer tier loop: tiers in order, each scanning all schema fields
before the next tier is tried. -/
def buscaPrioridades (l : Layer) : List Grupo → Option String
  | [] => none
  | g :: resto =>
    match buscaGrupo l g l.fields with
    | some nome => some nome
    | none => buscaPrioridades l resto

/-- The database branch's primary-key acceptance: Python's
`if pk and campo_e_unico(camada, pk) and not possui_valores_nulos(camada, pk)`
— the resolved key is used only when truthy (non-empty), unique and
null-free. -/
def pkAceita (l : Layer) : Option String :=
  match obter_chave_primaria l with
  | none => none
  | some pk =>
    if pk = "" then none
    else if campo_e_unico l pk && !possui_valores_nulos l pk then some pk
    else none

/-- `addAttributes([QgsField('id_row_nr', Int)])` + `updateFields()`: the new
integer field goes to the end of the schema and every existing feature gains
a null slot for it. -/
def adicionaCampo (l : Layer) (nome : String) : Layer :=
  { l with
    fields := l.fields ++ [{ name := nome, type := FieldType.tInt }],
    features := l.features.map (fun f => { f with values := f.values ++ [Value.vNull] }) }

/-- The numbering loop of `gerenciar_campo_auxiliar`: assign `i + 1` to the
attribute at position `idx` of the `i`-th feature (0-based `enumerate`). -/
def numeraFeicoes (idx : Nat) : Nat → List Feature → List Feature
  | _, [] => []
  | i, f :: resto =>
    { f with values := f.values.set idx (Value.vInt (Int.ofNat i + 1)) } ::
      numeraFeicoes idx (i + 1) resto

/-- `gerenciar_campo_auxiliar(camada, iface)`: refuse on WFS/CSV or
non-editable layers; otherwise ensure an `id_row_nr` attribute exists (the
source only adds it when absent — it does not recreate an existing one) and
overwrite it with the fresh 1-based sequence in iteration order. -/
def gerenciar_campo_auxiliar (l : Layer) : Option String × Layer :=
  if identificar_tipo_camada l = TipoCamada.wfs ∨ identificar_tipo_camada l = TipoCamada.csv ∨
     camada_editavel l = false then
    (none, l)
  else
    let nome := "id_row_nr"
    let l1 := if l.fields.any (fun c => decide (c.name = nome)) then l else adicionaCampo l nome
    match lookupField l1.fields nome with
    | none => (none, l1)
    | some idx => (some nome, { l1 with features := numeraFeicoes idx 0 l1.features })

/-- `identificar_campo_filtro(camada, iface)`: branch on the classification
(database / WFS-CSV-non-editable / editable file-kml-temporary / other);
the layer component of the result carries the schema mutation the editable
branch's fallback may perform. -/
def identificar_campo_filtro (l : Layer) : Option String × Layer :=
  let tipo := identificar_tipo_camada l
  if tipo = TipoCamada.database then
    match pkAceita l with
    | some pk => (some pk, l)
    | none => (primeiroCampoUnico l l.fields, l)
  else if tipo = TipoCamada.wfs ∨ tipo = TipoCamada.csv ∨ camada_editavel l = false then
    (primeiroCampoUnico l l.fields, l)
  else if tipo = TipoCamada.kml ∨ tipo = TipoCamada.file ∨ tipo = TipoCamada.temporary then
    match buscaPrioridades l prioridades with
    | some nome => (some nome, l)
    | none => gerenciar_campo_auxiliar l
  else (none, l)

/-- Outcomes of `executar_filtragem`, mirroring the message paths of the
source: invalid layer, empty selection, user-declined WFS warning, no
qualifying field, or success with the field used, the subset expression
applied and the filtered-feature count. -/
inductive Resultado where
  | camadaInvalida
  | semSelecao
  | cancelado
  | semCampo
  | sucesso (campo expressao : String) (quantidade : Nat)
deriving DecidableEq, Repr

/-- A single-quote character, used to wrap string values in the predicate. -/
def aspa : String :=
  String.mk [Char.ofNat 39]

/-- `camada.fields().field(campo).type()`; every reachable call passes a
name the schema resolves (a missing name would be a `KeyError` in the
source), modelled as `tOther`. -/
def tipoDoCampo (l : Layer) (nome : String) : FieldType :=
  match l.fields.find? (fun c => decide (c.name = nome)) with
  | some c => c.type
  | none => FieldType.tOther

/-- `feat[campo]`: attribute access by name through the schema lookup. -/
def valorPorNome (l : Layer) (f : Feature) (nome : String) : Value :=
  match lookupField l.fields nome with
  | some i => f.values.getD i Value.vNull
  | none => Value.vNull

/-- The value-formatting step of `executar_filtragem`: string/char fields get
each value single-quoted, every other type is joined verbatim; both joins
are comma-separated and in the given order. -/
def formataValores (tipoCampo : FieldType) (valores : List String) : String :=
  if tipoCampo = FieldType.tString ∨ tipoCampo = FieldType.tChar then
    String.intercalate "," (valores.map (fun v => aspa ++ v ++ aspa))
  else String.intercalate "," valores

/-- The subset-expression template `"<campo>" IN (<valores>)`. -/
def montaExpressao (campo valoresFormatados : String) : String :=
  "\"" ++ campo ++ "\" IN (" ++ valoresFormatados ++ ")"

/-- `executar_filtragem(iface)`: the full pipeline.  `camadaOpt = none`
models no/invalid active layer; `respostaNao` is the user's answer to the
large-WFS-selection warning (only consulted when that dialog is shown). -/
def executar_filtragem (camadaOpt : Option Layer) (respostaNao : Bool) :
    Resultado × Option Layer :=
  match camadaOpt with
  | none => (Resultado.camadaInvalida, none)
  | some camada =>
    if camada.ehValida = false then (Resultado.camadaInvalida, some camada)
    else
      let selecionados := camada.selectedFeatureIds
      if selecionados.isEmpty = true then (Resultado.semSelecao, some camada)
      else if identificar_tipo_camada camada = TipoCamada.wfs ∧ 20 < selecionados.length ∧
              respostaNao = true then
        (Resultado.cancelado, some camada)
      else
        let camada1 := { camada with subsetString := "" }
        match identificar_campo_filtro camada1 with
        | (none, camada2) => (Resultado.semCampo, some camada2)
        | (some campo, camada2) =>
          let feicoesSel := camada2.features.filter (fun f => selecionados.contains f.fid)
          let valores := feicoesSel.map (fun f => valorTexto (valorPorNome camada2 f campo))
          let expressao := montaExpressao campo (formataValores (tipoDoCampo camada2 campo) valores)
          (Resultado.sucesso campo expressao valores.length,
           some { camada2 with subsetString := expressao })

/-- Well-formedness used by the mutation proofs: every feature carries one
value slot per schema field. -/
def camadaBemFormada (l : Layer) : Bool :=
  l.features.all (fun f => decide (f.values.length = l.fields.length))

/-- A field name passes both oracles: unique and null-free. -/
@[reducible]
def nomeQualifica (l : Layer) (nome : String) : Prop :=
  campo_e_unico l nome = true ∧ possui_valores_nulos l nome = false

/-- A schema field passes both oracles. -/
@[reducible]
def qualificaVarredura (l : Layer) (c : Campo) : Prop :=
  nomeQualifica l c.name

/-- A schema field fully qualifies at a tier: name/type match plus both
oracles. -/
@[reducible]
def qualificaPleno (l : Layer) (g : Grupo) (c : Campo) : Prop :=
  campoSatisfazGrupo g c = true ∧ nomeQualifica l c.name

/-- The resolved primary key is accepted by the database branch: truthy
(non-empty), unique and null-free. -/
def pkQualificada (l : Layer) : Prop :=
  ∃ pk, obter_chave_primaria l = some pk ∧ pk ≠ "" ∧ nomeQualifica l pk

/-- The normalized value column the uniqueness oracle scans at position `i`. -/
def valoresNormalizados (l : Layer) (i : Nat) : List Value :=
  l.features.map (fun f => normalizar (f.values.getD i Value.vNull))

/-- Spec-side tier-1 test, written from the spec's words for comparison with
the code's `campoSatisfazGrupo grupo1`: name exactly `fid`, `id` or
`objectid` (case-insensitively) and type integer or long-integer. -/
def nivel1ExatoSpec (c : Campo) : Bool :=
  (decide (minusculas c.name = "fid") || decide (minusculas c.name = "id") ||
   decide (minusculas c.name = "objectid")) &&
  (decide (c.type = FieldType.tInt) || decide (c.type = FieldType.tLongLong))

/-- Base layer for the concrete instances below. -/
def camadaBase : Layer :=
  { fields := []
    features := []
    providerName := "ogr"
    sourceUri := "dados.shp"
    ehTemporaria := false
    podeAdicionarAtributos := true
    subsetString := ""
    selectedFeatureIds := []
    ehValida := true
    uriSchema := "public"
    uriTable := "tabela"
    uriDatabase := "base"
    executeSql := fun _ => Except.error "sem consulta" }

/-- Editable shapefile layer with one unique integer `id` field; its three
features carry the values 30, 10, 20 in iteration order and are all
selected. -/
def camadaArquivo : Layer :=
  { camadaBase with
    fields := [{ name := "id", type := FieldType.tInt }]
    features :=
      [{ fid := 0, values := [Value.vInt 30] },
       { fid := 1, values := [Value.vInt 10] },
       { fid := 2, values := [Value.vInt 20] }]
    selectedFeatureIds := [0, 1, 2] }

/-- Postgres layer whose catalog query resolves the primary key `gid`,
which is unique and null-free. -/
def camadaBanco : Layer :=
  { camadaBase with
    providerName := "postgres"
    sourceUri := "dbname=teste table=pontos"
    fields := [{ name := "gid", type := FieldType.tInt }]
    features :=
      [{ fid := 0, values := [Value.vInt 1] },
       { fid := 1, values := [Value.vInt 2] }]
    selectedFeatureIds := [0, 1]
    uriTable := "pontos"
    executeSql := fun _ => Except.ok [[Value.vStr "gid"]] }

/-- Editable shapefile layer that already carries a string-typed
`id_row_nr` attribute. -/
def camadaComAuxiliar : Layer :=
  { camadaBase with
    fields := [{ name := "id_row_nr", type := FieldType.tString }]
    features :=
      [{ fid := 0, values := [Value.vStr "a"] },
       { fid := 1, values := [Value.vStr "b"] }] }

/-- Editable shapefile layer with a long-integer `fid` (tier 1 only), an
integer `cod` (tier 2) and an integer `x` (tier 4 only), all unique and
null-free. -/
def camadaNiveis : Layer :=
  { camadaBase with
    fields :=
      [{ name := "fid", type := FieldType.tLongLong },
       { name := "cod", type := FieldType.tInt },
       { name := "x", type := FieldType.tInt }]
    features :=
      [{ fid := 0, values := [Value.vInt 1, Value.vInt 10, Value.vInt 5] },
       { fid := 1, values := [Value.vInt 2, Value.vInt 20, Value.vInt 6] }] }

/-- Editable shapefile layer with a tier-4-only integer `x` before a tier-2
integer `cod`, both unique and null-free. -/
def camadaNiveisDois : Layer :=
  { camadaBase with
    fields :=
      [{ name := "x", type := FieldType.tInt },
       { name := "cod", type := FieldType.tInt }]
    features :=
      [{ fid := 0, values := [Value.vInt 5, Value.vInt 10] },
       { fid := 1, values := [Value.vInt 6, Value.vInt 20] }] }

/-- WFS layer with 21 selected features. -/
def camadaWfs : Layer :=
  { camadaBase with
    providerName := "WFS"
    sourceUri := "https://servidor/wfs?typename=camada"
    fields := [{ name := "a", type := FieldType.tInt }]
    features := [{ fid := 0, values := [Value.vInt 1] }]
    selectedFeatureIds := List.range 21 }

/-- Postgres layer whose catalog query fails (e.g. permission denied). -/
def camadaBancoFalho : Layer :=
  { camadaBanco with
    executeSql := fun _ => Except.error "permissao negada" }

/-- WFS layer with a small selection and no unique field: every feature
repeats the value 1. -/
def camadaSemUnico : Layer :=
  { camadaBase with
    providerName := "WFS"
    sourceUri := "https://servidor/wfs?typename=camada"
    fields := [{ name := "a", type := FieldType.tInt }]
    features :=
      [{ fid := 0, values := [Value.vInt 1] },
       { fid := 1, values := [Value.vInt 1] }]
    selectedFeatureIds := [0, 1] }

theorem coletaValores_some_length (i : Nat) (fs : List Feature) :
    ∀ acc vistos : List Value, coletaValores i fs acc = some vistos →
      vistos.length = acc.length + fs.length := by
  induction fs with
  | nil =>
    intro acc vistos h
    simp only [coletaValores, Option.some.injEq] at h
    subst h
    simp
  | cons f resto ih =>
    intro acc vistos h
    simp only [coletaValores] at h
    split at h
    · exact absurd h (by simp)
    · have hlen := ih _ _ h
      simp only [List.length_cons] at hlen ⊢
      omega

theorem coletaValores_isSome_iff (i : Nat) (fs : List Feature) :
    ∀ acc : List Value,
      (coletaValores i fs acc).isSome = true ↔
        ((fs.map (fun f => normalizar (f.values.getD i Value.vNull))).Nodup ∧
         ∀ v ∈ fs.map (fun f => normalizar (f.values.getD i Value.vNull)), v ∉ acc) := by
  induction fs with
  | nil =>
    intro acc
    simp [coletaValores]
  | cons f resto ih =>
    intro acc
    simp only [coletaValores, List.map_cons, List.nodup_cons, List.mem_cons]
    split
    · rename_i hmem
      simp only [Option.isSome_none, Bool.false_eq_true, false_iff]
      rintro ⟨⟨_, _⟩, hdisj⟩
      exact hdisj _ (Or.inl rfl) hmem
    · rename_i hmem
      rw [ih]
      constructor
      · rintro ⟨hnd, hdisj⟩
        refine ⟨⟨fun hin => hdisj _ hin (List.mem_cons_self _ _), hnd⟩, ?_⟩
        rintro v (rfl | hv)
        · exact hmem
        · intro hva
          exact hdisj v hv (List.mem_cons_of_mem _ hva)
      · rintro ⟨⟨hnotin, hnd⟩, hdisj⟩
        refine ⟨hnd, ?_⟩
        intro v hv hvcons
        rcases List.mem_cons.mp hvcons with rfl | hva
        · exact hnotin hv
        · exact hdisj v (Or.inr hv) hva

theorem campo_e_unico_iff_nodup (l : Layer) (nome : String) (i : Nat)
    (h : lookupField l.fields nome = some i) :
    campo_e_unico l nome = true ↔ (valoresNormalizados l i).Nodup := by
  have hiff := coletaValores_isSome_iff i l.features []
  simp only [List.not_mem_nil, not_false_eq_true, implies_true, and_true] at hiff
  unfold campo_e_unico valoresNormalizados
  rw [h]
  split
  · rename_i hc
    exact absurd hc (by simp)
  · rename_i j hc
    injection hc with hij
    subst hij
    split
    · rename_i hc
      rw [hc] at hiff
      simp only [Option.isSome_none, Bool.false_eq_true, false_iff] at hiff ⊢
      intro hnd
      exact hiff hnd
    · rename_i vistos hc
      rw [hc] at hiff
      simp only [Option.isSome_some, true_iff] at hiff
      have hlen := coletaValores_some_length i l.features [] vistos hc
      simp only [List.length_nil, Nat.zero_add] at hlen
      simpa [hlen] using hiff

theorem campo_e_unico_lookup_isSome (l : Layer) (nome : String)
    (h : campo_e_unico l nome = true) : (lookupField l.fields nome).isSome = true := by
  unfold campo_e_unico at h
  cases hl : lookupField l.fields nome with
  | none => rw [hl] at h; exact absurd h (by simp)
  | some i => rfl

theorem count_nulos_normalizados (vs : List Value) :
    (vs.map normalizar).count Value.vNull = vs.count Value.vNull := by
  induction vs with
  | nil => rfl
  | cons v resto ih =>
    cases v <;> simp [normalizar, List.count_cons, ih]

theorem nodup_iff_card_toFinset (vs : List Value) :
    vs.Nodup ↔ vs.toFinset.card = vs.length := by
  constructor
  · exact List.toFinset_card_of_nodup
  · intro h
    rw [List.card_toFinset] at h
    have hsub : vs.dedup.Sublist vs := List.dedup_sublist vs
    have : vs.dedup = vs := hsub.eq_of_length h
    rw [← this]
    exact List.nodup_dedup vs

/-- Claim C4: for a field present in the schema, `campo_e_unico` returns
true exactly when the record-by-record scan of the normalized values finds
no two equal entries (the list is duplicate-free), equivalently when the
set of normalized values has cardinality equal to the record count; and a
field with two or more null entries is never unique. -/
theorem oraculo_unicidade (l : Layer) (nome : String) (i : Nat)
    (h : lookupField l.fields nome = some i) :
    (campo_e_unico l nome = true ↔ (valoresNormalizados l i).Nodup) ∧
    (campo_e_unico l nome = true ↔
      (valoresNormalizados l i).toFinset.card = l.features.length) ∧
    (2 ≤ (l.features.map (fun f => f.values.getD i Value.vNull)).count Value.vNull →
      campo_e_unico l nome = false) := by
  have h1 := campo_e_unico_iff_nodup l nome i h
  have hlen : (valoresNormalizados l i).length = l.features.length := by
    simp [valoresNormalizados]
  refine ⟨h1, ?_, ?_⟩
  · rw [h1, nodup_iff_card_toFinset, hlen]
  · intro hnulos
    have hcount : 2 ≤ (valoresNormalizados l i).count Value.vNull := by
      have hmapa := count_nulos_normalizados (l.features.map (fun f => f.values.getD i Value.vNull))
      rw [List.map_map] at hmapa
      unfold valoresNormalizados
      have hfun :
          (fun f : Feature => normalizar (f.values.getD i Value.vNull)) =
            (normalizar ∘ fun f : Feature => f.values.getD i Value.vNull) := rfl
      rw [hfun, hmapa]
      exact hnulos
    have hnotnodup : ¬ (valoresNormalizados l i).Nodup := by
      intro hnd
      have := List.nodup_iff_count_le_one.mp hnd Value.vNull
      omega
    cases hcu : campo_e_unico l nome
    · rfl
    · exact absurd (h1.mp hcu) hnotnodup

/-- Witness for C4 at the concrete shapefile layer. -/
theorem oraculo_unicidade_witness :
    (campo_e_unico camadaArquivo "id" = true ↔ (valoresNormalizados camadaArquivo 0).Nodup) ∧
    (campo_e_unico camadaArquivo "id" = true ↔
      (valoresNormalizados camadaArquivo 0).toFinset.card = camadaArquivo.features.length) ∧
    (2 ≤ (camadaArquivo.features.map (fun f => f.values.getD 0 Value.vNull)).count Value.vNull →
      campo_e_unico camadaArquivo "id" = false) :=
  oraculo_unicidade camadaArquivo "id" 0 (by decide)

/-- Claim C9: any failure raised inside the primary-key resolver's catalog
query (the body of its `try` block) is caught and collapsed to `none`; the
resolver never propagates it. -/
theorem resolutor_pk_captura_falha (l : Layer) (e : String)
    (h : obterPkCorpo l = Except.error e) :
    obter_chave_primaria l = none := by
  unfold obter_chave_primaria
  rw [h]

/-- Witness for C9 at a Postgres layer whose catalog query fails. -/
theorem resolutor_pk_captura_falha_witness :
    obterPkCorpo camadaBancoFalho = Except.error "permissao negada" ∧
    obter_chave_primaria camadaBancoFalho = none :=
  ⟨by rfl, resolutor_pk_captura_falha camadaBancoFalho "permissao negada" (by rfl)⟩

/-- Claim C3 counterexample: the integer field `grid` qualifies at tier 1 in
the code (the keyword test is substring containment, so `id` matches inside
`grid`) while the spec's exact-name tier-1 test rejects it. -/
theorem nivel1_contraexemplo :
    campoSatisfazGrupo grupo1 { name := "grid", type := FieldType.tInt } = true ∧
    nivel1ExatoSpec { name := "grid", type := FieldType.tInt } = false :=
  ⟨by rfl, by rfl⟩

/-- Claim C3 (amended): a field matches tier 1 exactly when its lowercased
name CONTAINS `fid`, `id` or `objectid` as a substring (not only when it
equals one of them) and its declared type is integer or long-integer. -/
theorem nivel1_subcadeia (c : Campo) :
    campoSatisfazGrupo grupo1 c = true ↔
      ((contemSub "fid" (minusculas c.name) = true ∨ contemSub "id" (minusculas c.name) = true ∨
        contemSub "objectid" (minusculas c.name) = true) ∧
       (c.type = FieldType.tInt ∨ c.type = FieldType.tLongLong)) := by
  unfold campoSatisfazGrupo grupo1
  simp only [List.any_cons, List.any_nil, List.isEmpty_cons, Bool.false_or, Bool.or_false,
    Bool.or_eq_true, Bool.and_eq_true, decide_eq_true_eq]
  constructor
  · rintro ⟨hn, ht⟩
    exact ⟨hn, by tauto⟩
  · rintro ⟨hn, ht⟩
    exact ⟨hn, by tauto⟩

theorem qual_bool_iff (l : Layer) (nome : String) :
    (campo_e_unico l nome && !possui_valores_nulos l nome) = true ↔ nomeQualifica l nome := by
  simp [nomeQualifica, Bool.and_eq_true, Bool.not_eq_true']

theorem primeiroCampoUnico_spec (l : Layer) (fs : List Campo) :
    (∃ pre c post, fs = pre ++ c :: post ∧ primeiroCampoUnico l fs = some c.name ∧
      qualificaVarredura l c ∧ ∀ c2 ∈ pre, ¬ qualificaVarredura l c2) ∨
    (primeiroCampoUnico l fs = none ∧ ∀ c ∈ fs, ¬ qualificaVarredura l c) := by
  induction fs with
  | nil =>
    right
    simp [primeiroCampoUnico]
  | cons c resto ih =>
    by_cases hq : (campo_e_unico l c.name && !possui_valores_nulos l c.name) = true
    · left
      exact ⟨[], c, resto, rfl, by simp [primeiroCampoUnico, hq],
        (qual_bool_iff l c.name).mp hq, by simp⟩
    · have hnq : ¬ qualificaVarredura l c := fun hc => hq ((qual_bool_iff l c.name).mpr hc)
      have hred : primeiroCampoUnico l (c :: resto) = primeiroCampoUnico l resto := by
        simp [primeiroCampoUnico, hq]
      rcases ih with ⟨pre, c2, post, heq, hres, hq2, hpre⟩ | ⟨hres, hall⟩
      · left
        refine ⟨c :: pre, c2, post, by rw [heq, List.cons_append], by rw [hred]; exact hres,
          hq2, ?_⟩
        intro c3 hc3
        rcases List.mem_cons.mp hc3 with rfl | h3
        · exact hnq
        · exact hpre c3 h3
      · right
        refine ⟨by rw [hred]; exact hres, ?_⟩
        intro c3 hc3
        rcases List.mem_cons.mp hc3 with rfl | h3
        · exact hnq
        · exact hall c3 h3

theorem primeiroCampoUnico_qualifica (l : Layer) (fs : List Campo) (nome : String)
    (h : primeiroCampoUnico l fs = some nome) :
    ∃ c ∈ fs, c.name = nome ∧ nomeQualifica l nome := by
  induction fs with
  | nil => simp [primeiroCampoUnico] at h
  | cons c resto ih =>
    by_cases hq : (campo_e_unico l c.name && !possui_valores_nulos l c.name) = true
    · simp only [primeiroCampoUnico, if_pos hq, Option.some.injEq] at h
      subst h
      exact ⟨c, List.mem_cons_self _ _, rfl, (qual_bool_iff l c.name).mp hq⟩
    · simp only [primeiroCampoUnico, if_neg hq] at h
      obtain ⟨c2, hc2, hname, hqual⟩ := ih h
      exact ⟨c2, List.mem_cons_of_mem _ hc2, hname, hqual⟩

theorem pkAceita_eq_obter (l : Layer) (h : pkQualificada l) :
    pkAceita l = obter_chave_primaria l := by
  rcases h with ⟨pk, hobter, hne, hq⟩
  simp only [pkAceita, hobter]
  rw [if_neg hne, if_pos ((qual_bool_iff l pk).mpr hq)]

theorem pkAceita_none (l : Layer) (h : ¬ pkQualificada l) :
    pkAceita l = none := by
  cases hobter : obter_chave_primaria l with
  | none => simp [pkAceita, hobter]
  | some pk =>
    simp only [pkAceita, hobter]
    by_cases hne : pk = ""
    · rw [if_pos hne]
    · rw [if_neg hne]
      by_cases hq : (campo_e_unico l pk && !possui_valores_nulos l pk) = true
      · exact absurd ⟨pk, hobter, hne, (qual_bool_iff l pk).mp hq⟩ h
      · rw [if_neg hq]

theorem identificar_db_red (l : Layer)
    (hdb : identificar_tipo_camada l = TipoCamada.database) :
    identificar_campo_filtro l =
      ((match pkAceita l with
        | some pk => some pk
        | none => primeiroCampoUnico l l.fields), l) := by
  unfold identificar_campo_filtro
  rw [hdb]
  simp only [reduceIte]
  cases pkAceita l <;> rfl

/-- Claim C2: on a database-classified layer the selector mutates nothing;
it returns the resolved primary key whenever that key is truthy, unique and
null-free, and otherwise returns the first schema field (in original order)
that is unique and null-free, or `none` when no field qualifies — the
synthetic-field materializer is never reached. -/
theorem ramo_banco_de_dados (l : Layer)
    (hdb : identificar_tipo_camada l = TipoCamada.database) :
    (identificar_campo_filtro l).2 = l ∧
    (pkQualificada l → (identificar_campo_filtro l).1 = obter_chave_primaria l) ∧
    (¬ pkQualificada l →
      ((∃ pre c post, l.fields = pre ++ c :: post ∧
          (identificar_campo_filtro l).1 = some c.name ∧ qualificaVarredura l c ∧
          ∀ c2 ∈ pre, ¬ qualificaVarredura l c2) ∨
       ((identificar_campo_filtro l).1 = none ∧ ∀ c ∈ l.fields, ¬ qualificaVarredura l c))) := by
  have hred := identificar_db_red l hdb
  refine ⟨by rw [hred], ?_, ?_⟩
  · intro hpk
    have hpa := pkAceita_eq_obter l hpk
    rcases hpk with ⟨pk, hobter, -, -⟩
    rw [hred]
    simp only [hpa, hobter]
  · intro hnpk
    have hpa := pkAceita_none l hnpk
    rw [hred]
    simp only [hpa]
    exact primeiroCampoUnico_spec l l.fields

/-- Witness for C2 at the concrete Postgres layer: the resolved key `gid`
qualifies and is returned, with the layer untouched. -/
theorem ramo_banco_de_dados_witness :
    (identificar_campo_filtro camadaBanco).2 = camadaBanco ∧
    (identificar_campo_filtro camadaBanco).1 = some "gid" := by
  have h := ramo_banco_de_dados camadaBanco (by decide)
  have hq : pkQualificada camadaBanco := ⟨"gid", by rfl, by decide, by decide, by decide⟩
  refine ⟨h.1, ?_⟩
  rw [h.2.1 hq]
  rfl

theorem pleno_bool_iff (l : Layer) (g : Grupo) (c : Campo) :
    (campoSatisfazGrupo g c && campo_e_unico l c.name && !possui_valores_nulos l c.name) = true ↔
      qualificaPleno l g c := by
  simp [qualificaPleno, nomeQualifica, Bool.and_eq_true, Bool.not_eq_true', and_assoc]

theorem buscaGrupo_some (l : Layer) (g : Grupo) (fs : List Campo) (nome : String)
    (h : buscaGrupo l g fs = some nome) :
    ∃ c ∈ fs, c.name = nome ∧ qualificaPleno l g c := by
  induction fs with
  | nil => simp [buscaGrupo] at h
  | cons c resto ih =>
    by_cases hq :
        (campoSatisfazGrupo g c && campo_e_unico l c.name && !possui_valores_nulos l c.name) = true
    · simp only [buscaGrupo, if_pos hq, Option.some.injEq] at h
      subst h
      exact ⟨c, List.mem_cons_self _ _, rfl, (pleno_bool_iff l g c).mp hq⟩
    · simp only [buscaGrupo, if_neg hq] at h
      obtain ⟨c2, hc2, hname, hqual⟩ := ih h
      exact ⟨c2, List.mem_cons_of_mem _ hc2, hname, hqual⟩

theorem buscaGrupo_isSome (l : Layer) (g : Grupo) (fs : List Campo) (c : Campo)
    (hc : c ∈ fs) (hq : qualificaPleno l g c) :
    ∃ nome, buscaGrupo l g fs = some nome := by
  induction fs with
  | nil => cases hc
  | cons c1 resto ih =>
    by_cases hq1 :
        (campoSatisfazGrupo g c1 && campo_e_unico l c1.name && !possui_valores_nulos l c1.name) =
          true
    · exact ⟨c1.name, by simp only [buscaGrupo, if_pos hq1]⟩
    · rcases List.mem_cons.mp hc with rfl | hresto
      · exact absurd ((pleno_bool_iff l g c).mpr hq) hq1
      · obtain ⟨nome, hnome⟩ := ih hresto
        exact ⟨nome, by simp only [buscaGrupo, if_neg hq1]; exact hnome⟩

theorem identificar_niveis_red (l : Layer)
    (htipo : identificar_tipo_camada l = TipoCamada.kml ∨
      identificar_tipo_camada l = TipoCamada.file ∨
      identificar_tipo_camada l = TipoCamada.temporary)
    (hed : camada_editavel l = true) :
    identificar_campo_filtro l =
      (match buscaPrioridades l prioridades with
       | some nome => (some nome, l)
       | none => gerenciar_campo_auxiliar l) := by
  unfold identificar_campo_filtro
  rcases htipo with h | h | h <;> rw [h] <;> simp [hed]

/-- Claim C7 counterexample: in `camadaNiveis` the field `cod` fully
qualifies at tier 2 and `x` qualifies only at tier 4, yet the selector
returns `fid` — a long-integer field that does not qualify at tier 2 — so
the claim "the selector returns the tier-2 field" fails as stated. -/
theorem preferencia_niveis_contraexemplo :
    ({ name := "cod", type := FieldType.tInt } : Campo) ∈ camadaNiveis.fields ∧
    qualificaPleno camadaNiveis grupo2 { name := "cod", type := FieldType.tInt } ∧
    ({ name := "x", type := FieldType.tInt } : Campo) ∈ camadaNiveis.fields ∧
    qualificaPleno camadaNiveis grupo4 { name := "x", type := FieldType.tInt } ∧
    campoSatisfazGrupo grupo1 { name := "x", type := FieldType.tInt } = false ∧
    campoSatisfazGrupo grupo2 { name := "x", type := FieldType.tInt } = false ∧
    campoSatisfazGrupo grupo3 { name := "x", type := FieldType.tInt } = false ∧
    (identificar_campo_filtro camadaNiveis).1 = some "fid" ∧
    ¬ qualificaPleno camadaNiveis grupo2 { name := "fid", type := FieldType.tLongLong } ∧
    ("fid" : String) ≠ "cod" := by
  decide

/-- Claim C7 (amended): tiers are evaluated in order and short-circuit — in
the editable branch, whenever some field fully qualifies at tier 2 and
another qualifies only at tier 4, the selector returns a field qualifying
at tier 1 or tier 2 (never the tier-4-only field). -/
theorem preferencia_niveis (l : Layer)
    (htipo : identificar_tipo_camada l = TipoCamada.kml ∨
      identificar_tipo_camada l = TipoCamada.file ∨
      identificar_tipo_camada l = TipoCamada.temporary)
    (hed : camada_editavel l = true)
    (hnomes : (l.fields.map Campo.name).Nodup)
    (x : Campo) (hx : x ∈ l.fields) (hxq : qualificaPleno l grupo2 x)
    (y : Campo) (hy : y ∈ l.fields) (hyq : qualificaPleno l grupo4 y)
    (hy1 : campoSatisfazGrupo grupo1 y = false)
    (hy2 : campoSatisfazGrupo grupo2 y = false)
    (hy3 : campoSatisfazGrupo grupo3 y = false) :
    ∃ c ∈ l.fields, (identificar_campo_filtro l).1 = some c.name ∧
      (qualificaPleno l grupo1 c ∨ qualificaPleno l grupo2 c) ∧ c.name ≠ y.name := by
  have hred := identificar_niveis_red l htipo hed
  cases hg1 : buscaGrupo l grupo1 l.fields with
  | some nome =>
    have hbp : buscaPrioridades l prioridades = some nome := by
      simp [buscaPrioridades, prioridades, hg1]
    obtain ⟨c, hcmem, hcname, hcq⟩ := buscaGrupo_some l grupo1 l.fields nome hg1
    refine ⟨c, hcmem, ?_, Or.inl hcq, ?_⟩
    · rw [hred, hbp, hcname]
    · intro hname
      have hcy : c = y := List.inj_on_of_nodup_map hnomes hcmem hy hname
      rw [hcy] at hcq
      exact absurd hcq.1 (by rw [hy1]; simp)
  | none =>
    obtain ⟨nome, hg2⟩ := buscaGrupo_isSome l grupo2 l.fields x hx hxq
    have hbp : buscaPrioridades l prioridades = some nome := by
      simp [buscaPrioridades, prioridades, hg1, hg2]
    obtain ⟨c, hcmem, hcname, hcq⟩ := buscaGrupo_some l grupo2 l.fields nome hg2
    refine ⟨c, hcmem, ?_, Or.inr hcq, ?_⟩
    · rw [hred, hbp, hcname]
    · intro hname
      have hcy : c = y := List.inj_on_of_nodup_map hnomes hcmem hy hname
      rw [hcy] at hcq
      exact absurd hcq.1 (by rw [hy2]; simp)

/-- Witness for the amended C7 at `camadaNiveisDois`: `cod` qualifies at
tier 2, `x` only at tier 4, and the selector indeed returns a tier-1/2
field distinct from `x`. -/
theorem preferencia_niveis_witness :
    ∃ c ∈ camadaNiveisDois.fields,
      (identificar_campo_filtro camadaNiveisDois).1 = some c.name ∧
      (qualificaPleno camadaNiveisDois grupo1 c ∨ qualificaPleno camadaNiveisDois grupo2 c) ∧
      c.name ≠ ({ name := "x", type := FieldType.tInt } : Campo).name :=
  preferencia_niveis camadaNiveisDois (by decide) (by decide) (by decide)
    { name := "cod", type := FieldType.tInt } (by decide) (by decide)
    { name := "x", type := FieldType.tInt } (by decide) (by decide)
    (by decide) (by decide) (by decide)

theorem getD_set_self (vs : List Value) (i : Nat) (v : Value) (h : i < vs.length) :
    (vs.set i v).getD i Value.vNull = v := by
  induction vs generalizing i with
  | nil => simp at h
  | cons a resto ih =>
    cases i with
    | zero => rfl
    | succ j =>
      simp only [List.set_cons_succ, List.getD_cons_succ]
      exact ih j (by simpa using h)

theorem numeraFeicoes_length (idx : Nat) (fs : List Feature) :
    ∀ i, (numeraFeicoes idx i fs).length = fs.length := by
  induction fs with
  | nil => intro i; rfl
  | cons f resto ih =>
    intro i
    simp [numeraFeicoes, ih]

theorem numeraFeicoes_mapa (idx : Nat) (fs : List Feature) :
    ∀ i, (∀ f ∈ fs, idx < f.values.length) →
      (numeraFeicoes idx i fs).map (fun f => f.values.getD idx Value.vNull) =
        (List.range fs.length).map (fun k => Value.vInt (Int.ofNat (i + k) + 1)) := by
  induction fs with
  | nil =>
    intro i _
    rfl
  | cons f resto ih =>
    intro i hlt
    simp only [numeraFeicoes, List.map_cons, List.length_cons, List.range_succ_eq_map,
      List.map_map]
    have hhead : (f.values.set idx (Value.vInt (Int.ofNat i + 1))).getD idx Value.vNull =
        Value.vInt (Int.ofNat i + 1) :=
      getD_set_self _ _ _ (hlt f (List.mem_cons_self _ _))
    rw [hhead, ih (i + 1) (fun f2 h2 => hlt f2 (List.mem_cons_of_mem _ h2))]
    have htail : (List.range resto.length).map
        (fun k => Value.vInt (Int.ofNat (i + 1 + k) + 1)) =
        (List.range resto.length).map
          ((fun k => Value.vInt (Int.ofNat (i + k) + 1)) ∘ Nat.succ) := by
      apply List.map_congr_left
      intro k hk
      simp only [Function.comp_apply, Value.vInt.injEq, Int.ofNat_eq_coe, Nat.succ_eq_add_one]
      push_cast
      omega
    have hcab : Value.vInt (Int.ofNat i + 1) = Value.vInt (Int.ofNat (i + 0) + 1) := by simp
    rw [hcab, htail]

theorem indiceDoCampo_lt (nome : String) (fs : List Campo) :
    ∀ i, indiceDoCampo nome fs = some i → i < fs.length := by
  induction fs with
  | nil =>
    intro i h
    simp [indiceDoCampo] at h
  | cons c resto ih =>
    intro i h
    simp only [indiceDoCampo] at h
    split at h
    · injection h with h0
      simp only [List.length_cons]
      omega
    · obtain ⟨j, hj, hji⟩ := Option.map_eq_some'.mp h
      have := ih j hj
      simp only [List.length_cons]
      omega

theorem indiceDoCampoCI_lt (nome : String) (fs : List Campo) :
    ∀ i, indiceDoCampoCI nome fs = some i → i < fs.length := by
  induction fs with
  | nil =>
    intro i h
    simp [indiceDoCampoCI] at h
  | cons c resto ih =>
    intro i h
    simp only [indiceDoCampoCI] at h
    split at h
    · injection h with h0
      simp only [List.length_cons]
      omega
    · obtain ⟨j, hj, hji⟩ := Option.map_eq_some'.mp h
      have := ih j hj
      simp only [List.length_cons]
      omega

theorem lookupField_lt (fs : List Campo) (nome : String) (i : Nat)
    (h : lookupField fs nome = some i) : i < fs.length := by
  unfold lookupField at h
  cases hx : indiceDoCampo nome fs with
  | some j =>
    rw [hx] at h
    injection h with hj
    subst hj
    exact indiceDoCampo_lt nome fs _ hx
  | none =>
    rw [hx] at h
    exact indiceDoCampoCI_lt nome fs i h

theorem indiceDoCampo_isSome_of_mem (nome : String) (fs : List Campo)
    (h : ∃ c ∈ fs, c.name = nome) : (indiceDoCampo nome fs).isSome = true := by
  induction fs with
  | nil =>
    obtain ⟨c, hc, -⟩ := h
    cases hc
  | cons c1 resto ih =>
    simp only [indiceDoCampo]
    split
    · rfl
    · rename_i hne
      obtain ⟨c, hc, hname⟩ := h
      rcases List.mem_cons.mp hc with rfl | hr
      · exact absurd hname hne
      · have hsome := ih ⟨c, hr, hname⟩
        cases hx : indiceDoCampo nome resto with
        | none =>
          rw [hx] at hsome
          exact absurd hsome (by simp)
        | some j => rfl

theorem lookupField_isSome_of_mem (fs : List Campo) (nome : String)
    (h : ∃ c ∈ fs, c.name = nome) : ∃ i, lookupField fs nome = some i := by
  unfold lookupField
  cases hx : indiceDoCampo nome fs with
  | some j => exact ⟨j, rfl⟩
  | none =>
    have := indiceDoCampo_isSome_of_mem nome fs h
    rw [hx] at this
    exact absurd this (by simp)

theorem camadaBemFormada_val (l : Layer) (h : camadaBemFormada l = true) :
    ∀ f ∈ l.features, f.values.length = l.fields.length := by
  intro f hf
  have := List.all_eq_true.mp h f hf
  exact of_decide_eq_true this

theorem campo_unico_da_sequencia (l2 : Layer) (idx : Nat)
    (hlook : lookupField l2.fields "id_row_nr" = some idx)
    (hmapa : l2.features.map (fun f => f.values.getD idx Value.vNull) =
      (List.range l2.features.length).map (fun k => Value.vInt (Int.ofNat k + 1))) :
    campo_e_unico l2 "id_row_nr" = true := by
  rw [campo_e_unico_iff_nodup l2 _ idx hlook]
  have hval : valoresNormalizados l2 idx =
      (List.range l2.features.length).map (fun k => Value.vInt (Int.ofNat k + 1)) := by
    unfold valoresNormalizados
    calc l2.features.map (fun f => normalizar (f.values.getD idx Value.vNull))
        = (l2.features.map (fun f => f.values.getD idx Value.vNull)).map normalizar := by
          rw [List.map_map]
          rfl
      _ = ((List.range l2.features.length).map
            (fun k => Value.vInt (Int.ofNat k + 1))).map normalizar := by rw [hmapa]
      _ = (List.range l2.features.length).map (fun k => Value.vInt (Int.ofNat k + 1)) := by
          rw [List.map_map]
          apply List.map_congr_left
          intro k _
          rfl
  rw [hval]
  apply List.Nodup.map
  · intro a b hab
    simp only [Value.vInt.injEq, Int.ofNat_eq_coe] at hab
    omega
  · exact List.nodup_range _

theorem gerenciar_sucesso (l : Layer)
    (hg : ¬ (identificar_tipo_camada l = TipoCamada.wfs ∨
      identificar_tipo_camada l = TipoCamada.csv ∨ camada_editavel l = false))
    (hWf : camadaBemFormada l = true) :
    ∃ idx l2,
      gerenciar_campo_auxiliar l = (some "id_row_nr", l2) ∧
      lookupField l2.fields "id_row_nr" = some idx ∧
      l2.features.map (fun f => f.values.getD idx Value.vNull) =
        (List.range l.features.length).map (fun k => Value.vInt (Int.ofNat k + 1)) ∧
      campo_e_unico l2 "id_row_nr" = true ∧
      l2.subsetString = l.subsetString := by
  by_cases hpres : l.fields.any (fun c => decide (c.name = "id_row_nr")) = true
  · obtain ⟨c, hcmem, hcdec⟩ := List.any_eq_true.mp hpres
    have hcname : c.name = "id_row_nr" := of_decide_eq_true hcdec
    obtain ⟨idx, hlook⟩ := lookupField_isSome_of_mem l.fields "id_row_nr" ⟨c, hcmem, hcname⟩
    have hred : gerenciar_campo_auxiliar l =
        (some "id_row_nr", { l with features := numeraFeicoes idx 0 l.features }) := by
      simp only [gerenciar_campo_auxiliar, if_neg hg, if_pos hpres, hlook]
    have hlt : ∀ f ∈ l.features, idx < f.values.length := by
      intro f hf
      rw [camadaBemFormada_val l hWf f hf]
      exact lookupField_lt l.fields _ idx hlook
    have hmapa : (numeraFeicoes idx 0 l.features).map
        (fun f => f.values.getD idx Value.vNull) =
        (List.range l.features.length).map (fun k => Value.vInt (Int.ofNat k + 1)) := by
      have := numeraFeicoes_mapa idx l.features 0 hlt
      simpa using this
    refine ⟨idx, _, hred, hlook, hmapa, ?_, rfl⟩
    refine campo_unico_da_sequencia _ idx ?_ ?_
    · exact hlook
    · show (numeraFeicoes idx 0 l.features).map (fun f => f.values.getD idx Value.vNull) =
        (List.range (numeraFeicoes idx 0 l.features).length).map
          (fun k => Value.vInt (Int.ofNat k + 1))
      rw [numeraFeicoes_length idx l.features 0, hmapa]
  · have hmem : ∃ c ∈ (adicionaCampo l "id_row_nr").fields, c.name = "id_row_nr" := by
      refine ⟨{ name := "id_row_nr", type := FieldType.tInt }, ?_, rfl⟩
      unfold adicionaCampo
      simp
    obtain ⟨idx, hlook⟩ :=
      lookupField_isSome_of_mem (adicionaCampo l "id_row_nr").fields "id_row_nr" hmem
    have hred : gerenciar_campo_auxiliar l =
        (some "id_row_nr",
          { adicionaCampo l "id_row_nr" with
            features := numeraFeicoes idx 0 (adicionaCampo l "id_row_nr").features }) := by
      simp only [gerenciar_campo_auxiliar, if_neg hg, if_neg hpres, hlook]
    have hlt : ∀ f ∈ (adicionaCampo l "id_row_nr").features, idx < f.values.length := by
      intro f hf
      unfold adicionaCampo at hf
      simp only [List.mem_map] at hf
      obtain ⟨g, hg2, rfl⟩ := hf
      have h1 : g.values.length = l.fields.length := camadaBemFormada_val l hWf g hg2
      have h2 := lookupField_lt (adicionaCampo l "id_row_nr").fields _ idx hlook
      have h3 : (adicionaCampo l "id_row_nr").fields.length = l.fields.length + 1 := by
        unfold adicionaCampo
        simp
      rw [h3] at h2
      show idx < (g.values ++ [Value.vNull]).length
      simp only [List.length_append, List.length_cons, List.length_nil]
      omega
    have hlen : (adicionaCampo l "id_row_nr").features.length = l.features.length := by
      unfold adicionaCampo
      simp
    have hmapa : (numeraFeicoes idx 0 (adicionaCampo l "id_row_nr").features).map
        (fun f => f.values.getD idx Value.vNull) =
        (List.range l.features.length).map (fun k => Value.vInt (Int.ofNat k + 1)) := by
      have := numeraFeicoes_mapa idx (adicionaCampo l "id_row_nr").features 0 hlt
      rw [hlen] at this
      simpa using this
    refine ⟨idx, _, hred, hlook, hmapa, ?_, rfl⟩
    refine campo_unico_da_sequencia _ idx ?_ ?_
    · exact hlook
    · show (numeraFeicoes idx 0 (adicionaCampo l "id_row_nr").features).map
          (fun f => f.values.getD idx Value.vNull) =
        (List.range (numeraFeicoes idx 0 (adicionaCampo l "id_row_nr").features).length).map
          (fun k => Value.vInt (Int.ofNat k + 1))
      rw [numeraFeicoes_length idx _ 0, hlen, hmapa]

theorem pkAceita_some_unico (l : Layer) (pk : String) (h : pkAceita l = some pk) :
    campo_e_unico l pk = true := by
  cases hobter : obter_chave_primaria l with
  | none =>
    simp only [pkAceita, hobter] at h
    exact absurd h (by simp)
  | some pk0 =>
    simp only [pkAceita, hobter] at h
    by_cases hne : pk0 = ""
    · rw [if_pos hne] at h
      exact absurd h (by simp)
    · rw [if_neg hne] at h
      by_cases hq : (campo_e_unico l pk0 && !possui_valores_nulos l pk0) = true
      · rw [if_pos hq] at h
        injection h with hpk
        subst hpk
        exact ((qual_bool_iff l pk0).mp hq).1
      · rw [if_neg hq] at h
        exact absurd h (by simp)

theorem buscaPrioridades_qualifica (l : Layer) (gs : List Grupo) (nome : String)
    (h : buscaPrioridades l gs = some nome) : nomeQualifica l nome := by
  induction gs with
  | nil => simp [buscaPrioridades] at h
  | cons g resto ih =>
    simp only [buscaPrioridades] at h
    cases hg : buscaGrupo l g l.fields with
    | some nome2 =>
      simp only [hg] at h
      injection h with hnome
      subst hnome
      obtain ⟨c, -, hcname, hcq⟩ := buscaGrupo_some l g l.fields nome2 hg
      rw [← hcname]
      exact hcq.2
    | none =>
      simp only [hg] at h
      exact ih h

/-- Claim C6 counterexample: on an editable layer that already carries a
string-typed `id_row_nr`, the materializer succeeds but leaves the field
with its old string declared type — the dataset is NOT left with an integer
field, and the post-state differs from the one obtained when the field is
created fresh (an integer field appended to the schema). -/
theorem materializador_contraexemplo :
    (gerenciar_campo_auxiliar camadaComAuxiliar).1 = some "id_row_nr" ∧
    (gerenciar_campo_auxiliar camadaComAuxiliar).2.fields =
      [{ name := "id_row_nr", type := FieldType.tString }] ∧
    FieldType.tString ≠ FieldType.tInt := by
  refine ⟨by rfl, by rfl, by decide⟩

/-- Claim C6 (amended): on every well-formed editable file/kml/temporary
layer with N records, the materializer returns `id_row_nr` and leaves that
attribute holding the fresh 1-based sequence 1..N in current iteration
order, discarding any prior values; the field's declared type and schema
position, however, are those of the pre-existing attribute when one exists
(a fresh integer field is appended only when absent). -/
theorem materializador_sequencia (l : Layer)
    (htipo : identificar_tipo_camada l = TipoCamada.kml ∨
      identificar_tipo_camada l = TipoCamada.file ∨
      identificar_tipo_camada l = TipoCamada.temporary)
    (hed : camada_editavel l = true)
    (hWf : camadaBemFormada l = true) :
    ∃ idx l2,
      gerenciar_campo_auxiliar l = (some "id_row_nr", l2) ∧
      lookupField l2.fields "id_row_nr" = some idx ∧
      l2.features.map (fun f => f.values.getD idx Value.vNull) =
        (List.range l.features.length).map (fun k => Value.vInt (Int.ofNat k + 1)) := by
  have hg : ¬ (identificar_tipo_camada l = TipoCamada.wfs ∨
      identificar_tipo_camada l = TipoCamada.csv ∨ camada_editavel l = false) := by
    rintro (h2 | h2 | h2)
    · rcases htipo with h | h | h <;> rw [h] at h2 <;> exact absurd h2 (by decide)
    · rcases htipo with h | h | h <;> rw [h] at h2 <;> exact absurd h2 (by decide)
    · rw [hed] at h2
      exact absurd h2 (by decide)
  obtain ⟨idx, l2, hger, hlook, hmapa, -, -⟩ := gerenciar_sucesso l hg hWf
  exact ⟨idx, l2, hger, hlook, hmapa⟩

/-- Witness for the amended C6 at the concrete shapefile layer (three
records, no pre-existing `id_row_nr`). -/
theorem materializador_sequencia_witness :
    ∃ idx l2,
      gerenciar_campo_auxiliar camadaArquivo = (some "id_row_nr", l2) ∧
      lookupField l2.fields "id_row_nr" = some idx ∧
      l2.features.map (fun f => f.values.getD idx Value.vNull) =
        (List.range camadaArquivo.features.length).map
          (fun k => Value.vInt (Int.ofNat k + 1)) :=
  materializador_sequencia camadaArquivo (by decide) (by decide) (by decide)

/-- Claim C1: whenever the field-priority selector returns a field name on a
well-formed layer, that name resolves in the resulting layer's schema and
passes the uniqueness oracle on the resulting layer at the moment of
return — a non-unique field is never returned. -/
theorem selecionador_invariante (l : Layer) (hWf : camadaBemFormada l = true)
    (nome : String) (hres : (identificar_campo_filtro l).1 = some nome) :
    campo_e_unico (identificar_campo_filtro l).2 nome = true ∧
    (lookupField (identificar_campo_filtro l).2.fields nome).isSome = true := by
  suffices h : campo_e_unico (identificar_campo_filtro l).2 nome = true by
    exact ⟨h, campo_e_unico_lookup_isSome _ nome h⟩
  by_cases hdb : identificar_tipo_camada l = TipoCamada.database
  · have hred := identificar_db_red l hdb
    rw [hred] at hres ⊢
    cases hpk : pkAceita l with
    | some pk =>
      simp only [hpk] at hres ⊢
      injection hres with hnome
      subst hnome
      exact pkAceita_some_unico l pk hpk
    | none =>
      simp only [hpk] at hres ⊢
      obtain ⟨c, -, -, hq⟩ := primeiroCampoUnico_qualifica l l.fields nome hres
      exact hq.1
  · by_cases hb2 : identificar_tipo_camada l = TipoCamada.wfs ∨
        identificar_tipo_camada l = TipoCamada.csv ∨ camada_editavel l = false
    · have hred : identificar_campo_filtro l = (primeiroCampoUnico l l.fields, l) := by
        unfold identificar_campo_filtro
        rw [if_neg hdb, if_pos hb2]
      rw [hred] at hres ⊢
      obtain ⟨c, -, -, hq⟩ := primeiroCampoUnico_qualifica l l.fields nome hres
      exact hq.1
    · by_cases hb3 : identificar_tipo_camada l = TipoCamada.kml ∨
          identificar_tipo_camada l = TipoCamada.file ∨
          identificar_tipo_camada l = TipoCamada.temporary
      · have hed : camada_editavel l = true := by
          cases hcam : camada_editavel l with
          | false => exact absurd (Or.inr (Or.inr hcam)) hb2
          | true => rfl
        have hred := identificar_niveis_red l hb3 hed
        rw [hred] at hres ⊢
        cases hbp : buscaPrioridades l prioridades with
        | some nome2 =>
          simp only [hbp] at hres ⊢
          injection hres with hnome
          subst hnome
          exact (buscaPrioridades_qualifica l prioridades nome2 hbp).1
        | none =>
          simp only [hbp] at hres ⊢
          obtain ⟨idx, l2, hger, hlook, hmapa, hunico, -⟩ := gerenciar_sucesso l hb2 hWf
          rw [hger] at hres ⊢
          injection hres with hnome
          subst hnome
          exact hunico
      · have hred : identificar_campo_filtro l = (none, l) := by
          unfold identificar_campo_filtro
          rw [if_neg hdb, if_neg hb2, if_neg hb3]
        rw [hred] at hres
        exact absurd hres (by simp)

/-- Witness for C1 at the concrete shapefile layer. -/
theorem selecionador_invariante_witness :
    campo_e_unico (identificar_campo_filtro camadaArquivo).2 "id" = true ∧
    (lookupField (identificar_campo_filtro camadaArquivo).2.fields "id").isSome = true :=
  selecionador_invariante camadaArquivo (by decide) "id" (by rfl)

theorem gerenciar_subset (l : Layer) :
    (gerenciar_campo_auxiliar l).2.subsetString = l.subsetString := by
  unfold gerenciar_campo_auxiliar
  split
  · rfl
  · dsimp only
    split <;> split <;> rfl

theorem identificar_subset (l : Layer) :
    (identificar_campo_filtro l).2.subsetString = l.subsetString := by
  by_cases hdb : identificar_tipo_camada l = TipoCamada.database
  · rw [identificar_db_red l hdb]
  · by_cases hb2 : identificar_tipo_camada l = TipoCamada.wfs ∨
        identificar_tipo_camada l = TipoCamada.csv ∨ camada_editavel l = false
    · have hred : identificar_campo_filtro l = (primeiroCampoUnico l l.fields, l) := by
        unfold identificar_campo_filtro
        rw [if_neg hdb, if_pos hb2]
      rw [hred]
    · by_cases hb3 : identificar_tipo_camada l = TipoCamada.kml ∨
          identificar_tipo_camada l = TipoCamada.file ∨
          identificar_tipo_camada l = TipoCamada.temporary
      · have hed : camada_editavel l = true := by
          cases hcam : camada_editavel l with
          | false => exact absurd (Or.inr (Or.inr hcam)) hb2
          | true => rfl
        rw [identificar_niveis_red l hb3 hed]
        cases hbp : buscaPrioridades l prioridades with
        | some nome => rfl
        | none => exact gerenciar_subset l
      · have hred : identificar_campo_filtro l = (none, l) := by
          unfold identificar_campo_filtro
          rw [if_neg hdb, if_neg hb2, if_neg hb3]
        rw [hred]

/-- Claim C8: on a valid WFS layer with more than 20 selected features, a
declined large-selection warning terminates the pipeline with the
`cancelado` outcome and the layer completely untouched — in particular its
subset string is not modified. -/
theorem aviso_wfs_cancelamento (l : Layer)
    (hval : l.ehValida = true)
    (hwfs : identificar_tipo_camada l = TipoCamada.wfs)
    (hlen : 20 < l.selectedFeatureIds.length) :
    executar_filtragem (some l) true = (Resultado.cancelado, some l) := by
  have hsel : l.selectedFeatureIds.isEmpty = false := by
    cases hx : l.selectedFeatureIds with
    | nil =>
      rw [hx] at hlen
      simp at hlen
    | cons a resto => rfl
  simp only [executar_filtragem]
  rw [if_neg (by simp [hval]), if_neg (by simp [hsel]), if_pos ⟨hwfs, hlen, trivial⟩]

/-- Witness for C8 at the concrete WFS layer with 21 selected features. -/
theorem aviso_wfs_cancelamento_witness :
    executar_filtragem (some camadaWfs) true = (Resultado.cancelado, some camadaWfs) :=
  aviso_wfs_cancelamento camadaWfs (by decide) (by decide) (by decide)

/-- Claim C10: once the valid-layer, non-empty-selection and
large-WFS-selection checks pass, the pipeline clears the subset string
before field selection; when selection then fails, the layer is left with
the EMPTY subset string rather than its pre-invocation one. -/
theorem falha_mantem_filtro_limpo (l : Layer) (resp : Bool)
    (hval : l.ehValida = true)
    (hsel : l.selectedFeatureIds.isEmpty = false)
    (hwfs : ¬ (identificar_tipo_camada l = TipoCamada.wfs ∧
      20 < l.selectedFeatureIds.length ∧ resp = true))
    (hcampo : (identificar_campo_filtro { l with subsetString := "" }).1 = none) :
    ∃ l2, executar_filtragem (some l) resp = (Resultado.semCampo, some l2) ∧
      l2.subsetString = "" := by
  have hsub := identificar_subset { l with subsetString := "" }
  rcases hid : identificar_campo_filtro { l with subsetString := "" } with ⟨o, l2⟩
  rw [hid] at hcampo hsub
  simp only at hcampo
  subst hcampo
  refine ⟨l2, ?_, hsub⟩
  simp only [executar_filtragem]
  rw [if_neg (by simp [hval]), if_neg (by simp [hsel]), if_neg hwfs, hid]

/-- Witness for C10 at the WFS layer with no unique field. -/
theorem falha_mantem_filtro_limpo_witness :
    ∃ l2, executar_filtragem (some camadaSemUnico) false = (Resultado.semCampo, some l2) ∧
      l2.subsetString = "" :=
  falha_mantem_filtro_limpo camadaSemUnico false (by decide) (by decide) (by decide) (by rfl)

/-- Claim C5 counterexample: on the concrete numeric layer whose selected
values arrive as 30, 10, 20, the built predicate joins them in iteration
order — `"id" IN (30,10,20)` — not in the ascending order the claim
states. -/
theorem construtor_sem_ordenacao :
    (executar_filtragem (some camadaArquivo) false).1 =
      Resultado.sucesso "id" (montaExpressao "id" "30,10,20") 3 ∧
    montaExpressao "id" "30,10,20" ≠ montaExpressao "id" "10,20,30" :=
  ⟨by rfl, by decide⟩

/-- Claim C5 (amended): for a non-string/char (numeric) chosen field the
builder produces `"<campo>" IN (<valores>)` with the selected records'
values rendered and joined by `,`, unquoted, in record-iteration order (no
sorting is applied). -/
theorem construtor_ordem_iteracao (l : Layer) (resp : Bool) (campo : String) (l2 : Layer)
    (hval : l.ehValida = true)
    (hsel : l.selectedFeatureIds.isEmpty = false)
    (hwfs : ¬ (identificar_tipo_camada l = TipoCamada.wfs ∧
      20 < l.selectedFeatureIds.length ∧ resp = true))
    (hid : identificar_campo_filtro { l with subsetString := "" } = (some campo, l2))
    (hstr : tipoDoCampo l2 campo ≠ FieldType.tString)
    (hchar : tipoDoCampo l2 campo ≠ FieldType.tChar) :
    (executar_filtragem (some l) resp).1 =
      Resultado.sucesso campo
        (montaExpressao campo (String.intercalate ","
          ((l2.features.filter (fun f => l.selectedFeatureIds.contains f.fid)).map
            (fun f => valorTexto (valorPorNome l2 f campo)))))
        ((l2.features.filter (fun f => l.selectedFeatureIds.contains f.fid)).map
          (fun f => valorTexto (valorPorNome l2 f campo))).length := by
  simp only [executar_filtragem]
  rw [if_neg (by simp [hval]), if_neg (by simp [hsel]), if_neg hwfs, hid]
  simp only [formataValores]
  rw [if_neg (by rintro (h | h); exacts [hstr h, hchar h])]

/-- Witness for the amended C5 at the concrete shapefile layer. -/
theorem construtor_ordem_iteracao_witness :
    (executar_filtragem (some camadaArquivo) false).1 =
      Resultado.sucesso "id"
        (montaExpressao "id" (String.intercalate ","
          ((({ camadaArquivo with subsetString := "" } : Layer).features.filter
              (fun f => camadaArquivo.selectedFeatureIds.contains f.fid)).map
            (fun f => valorTexto
              (valorPorNome { camadaArquivo with subsetString := "" } f "id")))))
        ((({ camadaArquivo with subsetString := "" } : Layer).features.filter
            (fun f => camadaArquivo.selectedFeatureIds.contains f.fid)).map
          (fun f => valorTexto
            (valorPorNome { camadaArquivo with subsetString := "" } f "id"))).length :=
  construtor_ordem_iteracao camadaArquivo false "id" { camadaArquivo with subsetString := "" }
    (by decide) (by decide) (by decide) (by rfl) (by decide) (by decide)
